import Mathlib

/-!
Verification of the Bibim renderer (`src/main.cpp`) against its
natural-language specification.  The development shallowly embeds the
decision procedures and the frame-lifecycle structure of the program:

* `choosePresentMode`, `chooseSurfaceFormat`, `checkPhysicalDevice` —
  swapchain negotiation and physical-device filtering;
* `getQueueFamily` — the two-pass queue-family resolution algorithm;
* `swapChainRequestedImageCount`, `createPerImageResources` — image-count
  negotiation and the per-swapchain-image resource arrays built in `main`;
* `deviceQueueCreateInfos`, `fetchQueuePairs` — queue-family deduplication
  for device creation and the per-family queue-index counters;
* `Mat4` and its multiplication over exact rationals (all products taken
  with the identity matrix involve only the factors 0 and 1, so IEEE float
  evaluation agrees exactly with the rational model, up to the sign of
  zero, which float equality identifies);
* `frameIteration` — a trace semantics of one iteration of the main loop;
* `updateSwapChainTrace` — a trace semantics of the swapchain recreation
  procedure;
* `updateFbStore` — a two-cell store semantics of the aliased framebuffer
  vector parameters of `updateSwapChain`;
* `FrameStep` / `ReachableLoopState` — a small-step state machine of the
  frame loop (acquire, fence wait, fence reset, uniform update, submit,
  present, frame-slot advance, asynchronous GPU completion).
-/

namespace BB

/-! ## Present modes and surface formats (main.cpp lines 366-404) -/

/-- Present modes relevant to `choosePresentMode`; mirrors `VkPresentModeKHR`. -/
inductive VkPresentModeKHR where
  | immediate
  | mailbox
  | fifo
  | fifoRelaxed
  deriving DecidableEq

/-- Mirrors `VkSurfaceFormatKHR`: a pixel format code and a color-space code. -/
structure VkSurfaceFormatKHR where
  format : Nat
  colorSpace : Nat
  deriving DecidableEq

/-- Numeric value of `VK_FORMAT_R8G8B8A8_SRGB`. -/
def VK_FORMAT_R8G8B8A8_SRGB : Nat := 37

/-- Numeric value of `VK_COLOR_SPACE_SRGB_NONLINEAR_KHR`. -/
def VK_COLOR_SPACE_SRGB_NONLINEAR_KHR : Nat := 0

/-- The preference test inside the loop of
`SwapChainSupportDetails::chooseSurfaceFormat` (main.cpp lines 372-377). -/
def isPreferredSurfaceFormat (f : VkSurfaceFormatKHR) : Bool :=
  f.format == VK_FORMAT_R8G8B8A8_SRGB &&
    f.colorSpace == VK_COLOR_SPACE_SRGB_NONLINEAR_KHR

/-- The scan loop of `chooseSurfaceFormat`: returns the first preferred
entry, or `none` if the loop falls through. -/
def chooseSurfaceFormatLoop : List VkSurfaceFormatKHR → Option VkSurfaceFormatKHR
  | [] => none
  | f :: rest =>
      if isPreferredSurfaceFormat f then some f else chooseSurfaceFormatLoop rest

/-- Embeds `SwapChainSupportDetails::chooseSurfaceFormat` (main.cpp lines 371-380):
first preferred entry, else `Formats[0]`.  Indexing an empty vector is
undefined behaviour in the source; the embedding returns `none` there. -/
def chooseSurfaceFormat (formats : List VkSurfaceFormatKHR) :
    Option VkSurfaceFormatKHR :=
  match chooseSurfaceFormatLoop formats with
  | some f => some f
  | none => formats.head?

/-- Restatement of the specification sentence for `chooseSurfaceFormat`
using `List.find?` for "the first entry such that"; compared with the
source-derived definition in the refinement theorem. -/
def chooseSurfaceFormatSpec (formats : List VkSurfaceFormatKHR) :
    Option VkSurfaceFormatKHR :=
  match formats.find? isPreferredSurfaceFormat with
  | some f => some f
  | none => formats.head?

/-- Embeds `SwapChainSupportDetails::choosePresentMode` (main.cpp lines 382-390):
scan for `VK_PRESENT_MODE_MAILBOX_KHR`, fall back to
`VK_PRESENT_MODE_FIFO_KHR`. -/
def choosePresentMode : List VkPresentModeKHR → VkPresentModeKHR
  | [] => VkPresentModeKHR.fifo
  | m :: rest =>
      if m = VkPresentModeKHR.mailbox then m else choosePresentMode rest

/-! ## Queue-family resolution (main.cpp lines 354-470) -/

/-- The capability bits of one queue family, with the per-family result of
the `vkGetPhysicalDeviceSurfaceSupportKHR` query folded in as `present`. -/
structure QueueFamilyProps where
  graphics : Bool
  transfer : Bool
  compute : Bool
  present : Bool
  deriving DecidableEq

/-- Mirrors `QueueFamilyIndices` (main.cpp lines 354-364). -/
structure QueueFamilyIndices where
  Graphics : Option Nat
  Transfer0 : Option Nat
  Present : Option Nat
  Compute : Option Nat
  deriving DecidableEq

/-- Embeds `QueueFamilyIndices::isCompleted` (main.cpp lines 360-363). -/
def QueueFamilyIndices.isCompleted (q : QueueFamilyIndices) : Bool :=
  q.Graphics.isSome && q.Transfer0.isSome && q.Present.isSome && q.Compute.isSome

/-- The zero-initialized `QueueFamilyIndices result = {}` of `getQueueFamily`. -/
def QueueFamilyIndices.initial : QueueFamilyIndices :=
  { Graphics := none, Transfer0 := none, Present := none, Compute := none }

/-- The exclusive `if`/`else if` chain of pass 1 of `getQueueFamily`
(main.cpp lines 420-436). -/
def pass1Assign (f : QueueFamilyProps) (i : Nat) (r : QueueFamilyIndices) :
    QueueFamilyIndices :=
  if f.graphics && !r.Graphics.isSome then { r with Graphics := some i }
  else if f.transfer && !r.Transfer0.isSome then { r with Transfer0 := some i }
  else if f.compute && !r.Compute.isSome then { r with Compute := some i }
  else if !r.Present.isSome && f.present then { r with Present := some i }
  else r

/-- Pass 1 of `getQueueFamily` (main.cpp lines 418-440), including the
early `break` once `isCompleted` holds. -/
def getQueueFamilyPass1 :
    List QueueFamilyProps → Nat → QueueFamilyIndices → QueueFamilyIndices
  | [], _, r => r
  | f :: rest, i, r =>
      let r2 := pass1Assign f i r
      if r2.isCompleted then r2 else getQueueFamilyPass1 rest (i + 1) r2

/-- First independent `if` of pass 2 (main.cpp lines 446-449). -/
def assignGraphics (f : QueueFamilyProps) (i : Nat) (r : QueueFamilyIndices) :
    QueueFamilyIndices :=
  if f.graphics && !r.Graphics.isSome then { r with Graphics := some i } else r

/-- Second independent `if` of pass 2 (main.cpp lines 450-453). -/
def assignTransfer (f : QueueFamilyProps) (i : Nat) (r : QueueFamilyIndices) :
    QueueFamilyIndices :=
  if f.transfer && !r.Transfer0.isSome then { r with Transfer0 := some i } else r

/-- Third independent `if` of pass 2 (main.cpp lines 454-457). -/
def assignCompute (f : QueueFamilyProps) (i : Nat) (r : QueueFamilyIndices) :
    QueueFamilyIndices :=
  if f.compute && !r.Compute.isSome then { r with Compute := some i } else r

/-- Fourth independent `if` of pass 2 (main.cpp lines 458-465), with the
present-support query folded into `f.present`. -/
def assignPresent (f : QueueFamilyProps) (i : Nat) (r : QueueFamilyIndices) :
    QueueFamilyIndices :=
  if !r.Present.isSome && f.present then { r with Present := some i } else r

/-- Pass 2 of `getQueueFamily` (main.cpp lines 444-467): non-exclusive
assignment of every still-unresolved role, no early exit. -/
def getQueueFamilyPass2 :
    List QueueFamilyProps → Nat → QueueFamilyIndices → QueueFamilyIndices
  | [], _, r => r
  | f :: rest, i, r =>
      getQueueFamilyPass2 rest (i + 1)
        (assignPresent f i (assignCompute f i (assignTransfer f i (assignGraphics f i r))))

/-- Embeds `getQueueFamily` (main.cpp lines 406-470): pass 1 followed by pass 2,
the latter only when pass 1 left some role unresolved. -/
def getQueueFamily (fams : List QueueFamilyProps) : QueueFamilyIndices :=
  let r := getQueueFamilyPass1 fams 0 QueueFamilyIndices.initial
  if r.isCompleted then r else getQueueFamilyPass2 fams 0 r

/-! ## Physical-device filtering (main.cpp lines 472-557) -/

/-- Numeric value of `VK_PHYSICAL_DEVICE_TYPE_INTEGRATED_GPU`. -/
def VK_PHYSICAL_DEVICE_TYPE_INTEGRATED_GPU : Nat := 1

/-- Numeric value of `VK_PHYSICAL_DEVICE_TYPE_DISCRETE_GPU`. -/
def VK_PHYSICAL_DEVICE_TYPE_DISCRETE_GPU : Nat := 2

/-- The data `checkPhysicalDevice` queries about one physical device and
the surface. -/
structure PhysicalDeviceInfo where
  deviceType : Nat
  geometryShader : Bool
  tessellationShader : Bool
  fillModeNonSolid : Bool
  depthClamp : Bool
  queueFamilies : List QueueFamilyProps
  extensionNames : List String
  surfaceFormats : List VkSurfaceFormatKHR
  surfacePresentModes : List VkPresentModeKHR

/-- Embeds `checkPhysicalDevice` (main.cpp lines 472-557): conjunction of
extension support, swapchain adequacy (non-empty format and present-mode
lists), device type, feature completeness, and queue completeness. -/
def checkPhysicalDevice (dev : PhysicalDeviceInfo)
    (deviceExtensions : List String) : Bool :=
  let areAllExtensionsSupported :=
    deviceExtensions.all (fun e => dev.extensionNames.any (fun p => p == e))
  let isSwapChainAdequate :=
    decide (0 < dev.surfaceFormats.length) &&
      decide (0 < dev.surfacePresentModes.length)
  let isProperType :=
    (dev.deviceType == VK_PHYSICAL_DEVICE_TYPE_DISCRETE_GPU) ||
      (dev.deviceType == VK_PHYSICAL_DEVICE_TYPE_INTEGRATED_GPU)
  let isFeatureComplete :=
    dev.geometryShader && dev.tessellationShader &&
      dev.fillModeNonSolid && dev.depthClamp
  let isQueueComplete := (getQueueFamily dev.queueFamilies).isCompleted
  areAllExtensionsSupported && isSwapChainAdequate && isProperType &&
    isFeatureComplete && isQueueComplete

/-! ## Swapchain image-count negotiation (main.cpp lines 573-583) -/

/-- The two fields of `VkSurfaceCapabilitiesKHR` used by the image-count
negotiation of `createSwapChain`. -/
structure SurfaceCapabilities where
  minImageCount : Nat
  maxImageCount : Nat
  deriving DecidableEq

/-- The image count requested by `createSwapChain` (main.cpp lines
576-583): `minImageCount + 1`, overwritten by `maxImageCount` when the
latter is positive and exceeded. -/
def swapChainRequestedImageCount (caps : SurfaceCapabilities) : Nat :=
  let m := caps.minImageCount + 1
  if 0 < caps.maxImageCount ∧ caps.maxImageCount < m then caps.maxImageCount
  else m

/-- Restatement of the specification sentence for the image count, to be
compared with the source-derived definition. -/
def swapChainImageCountSpec (minC maxC : Nat) : Nat :=
  if maxC ≠ 0 ∧ maxC < minC + 1 then maxC else minC + 1

/-- The per-swapchain-image resource arrays built in `main` (main.cpp
lines 1399-1481), each element abstracted to `Unit`: `uniformBuffers`,
`descriptorSets`, `graphicsCmdBuffers`, `imageAvailableSemaphores`,
`renderFinishedSemaphores`, `imageAvailableFences`. -/
structure PerImageResources where
  uniformBuffers : List Unit
  descriptorSets : List Unit
  graphicsCmdBuffers : List Unit
  imageAvailableSemaphores : List Unit
  renderFinishedSemaphores : List Unit
  imageAvailableFences : List Unit

/-- Creation of the per-image resource arrays in `main`: every array is
sized by `numSwapChainImages`. -/
def createPerImageResources (numSwapChainImages : Nat) : PerImageResources :=
  { uniformBuffers := List.replicate numSwapChainImages ()
    descriptorSets := List.replicate numSwapChainImages ()
    graphicsCmdBuffers := List.replicate numSwapChainImages ()
    imageAvailableSemaphores := List.replicate numSwapChainImages ()
    renderFinishedSemaphores := List.replicate numSwapChainImages ()
    imageAvailableFences := List.replicate numSwapChainImages () }

/-! ## Device queue creation and retrieval (main.cpp lines 1035-1098) -/

/-- The queue-family index of each of the four roles, in the order the
code calls `incrementNumQueues` and `vkGetDeviceQueue`: Graphics,
Transfer0, Present, Compute. -/
def roleQueueFamilies (g t p c : Nat) : List Nat := [g, t, p, c]

/-- One `(queueFamilyIndex, queueCount)` pair per distinct family, with
`queueCount` the number of roles mapped to the family — the contents of
`queueMap` turned into `queueCreateInfos` (main.cpp lines 1035-1066). -/
def deviceQueueCreateInfos (fams : List Nat) : List (Nat × Nat) :=
  fams.dedup.map (fun f => (f, fams.count f))

/-- The `(family, queueIndex)` pairs passed to the successive
`vkGetDeviceQueue` calls: each role reads `obtainedQueueCounters[family]`
and then increments it, so a role's queue index is the number of earlier
roles sharing its family (main.cpp lines 1079-1095). -/
def fetchQueueAux : List Nat → List Nat → List (Nat × Nat)
  | _, [] => []
  | seen, f :: rest => (f, seen.count f) :: fetchQueueAux (seen ++ [f]) rest

/-- The four `(family, queueIndex)` pairs fetched in `main`. -/
def fetchQueuePairs (fams : List Nat) : List (Nat × Nat) :=
  fetchQueueAux [] fams

/-! ## Mat4 (main.cpp lines 156-295), over exact rationals -/

/-- Mirrors `Float4` with exact rational entries. -/
structure Float4 where
  X : ℚ
  Y : ℚ
  Z : ℚ
  W : ℚ

/-- Embeds `dot(const Float4&, const Float4&)` (main.cpp lines 163-165). -/
def dotF4 (a b : Float4) : ℚ :=
  a.X * b.X + a.Y * b.Y + a.Z * b.Z + a.W * b.W

/-- Mirrors `Mat4`: a 4x4 array of entries, `M i j` standing for `M[i][j]`. -/
structure Mat4 where
  M : Fin 4 → Fin 4 → ℚ

/-- Embeds `Mat4::row` (main.cpp lines 170-173): `{M[0][n], M[1][n], M[2][n], M[3][n]}` —
the first index varies, the second is fixed. -/
def Mat4.row (a : Mat4) (n : Fin 4) : Float4 :=
  { X := a.M 0 n, Y := a.M 1 n, Z := a.M 2 n, W := a.M 3 n }

/-- Embeds `Mat4::column` (main.cpp lines 175-178): `{M[n][0], M[n][1], M[n][2], M[n][3]}`. -/
def Mat4.column (a : Mat4) (n : Fin 4) : Float4 :=
  { X := a.M n 0, Y := a.M n 1, Z := a.M n 2, W := a.M n 3 }

/-- Embeds `Mat4::identity` (main.cpp lines 180-187): ones on the diagonal of the
literal `{{1,0,0,0},{0,1,0,0},{0,0,1,0},{0,0,0,1}}`. -/
def Mat4.identity : Mat4 :=
  { M := fun i j => if i = j then 1 else 0 }

/-- Embeds `operator*(const Mat4&, const Mat4&)` (main.cpp lines 285-295):
`result.M[i][j] = dot(a.row(i), b.column(j))`. -/
def Mat4.mul (a b : Mat4) : Mat4 :=
  { M := fun i j => dotF4 (a.row i) (b.column j) }

/-- A matrix with a single off-diagonal nonzero entry, `M[0][1] = 1`. -/
def Mat4.offDiag : Mat4 :=
  { M := fun i j => if i = 0 ∧ j = 1 then 1 else 0 }

/-! ## One iteration of the main loop as a trace (main.cpp lines 1495-1588) -/

/-- Result of `vkAcquireNextImageKHR` as branched on by the loop. -/
inductive AcquireResult where
  | success
  | suboptimal
  | outOfDate
  deriving DecidableEq

/-- Result of `vkQueuePresentKHR` as branched on by the loop. -/
inductive PresentResult where
  | success
  | suboptimal
  | outOfDate
  deriving DecidableEq

/-- The observable actions of one loop iteration. -/
inductive FrameEvent where
  | refreshSurfaceCapabilities
  | recreateSwapChain
  | waitFence
  | resetFence
  | updateUniform
  | submit
  | present
  deriving DecidableEq

/-- One iteration of the main loop body (main.cpp lines 1506-1587), as the
list of actions performed and the next value of `currentFrame`.  The
out-of-date acquire branch refreshes the surface capabilities, runs
`updateSwapChain`, and `continue`s without advancing `currentFrame`; the
normal path waits and resets the slot fence, updates the uniform buffer,
submits, presents (recreating afterwards on a stale present result), and
advances `currentFrame` modulo `numSwapChainImages`. -/
def frameIteration (acq : AcquireResult) (pres : PresentResult)
    (currentFrame numSwapChainImages : Nat) : List FrameEvent × Nat :=
  if acq = AcquireResult.outOfDate then
    ([FrameEvent.refreshSurfaceCapabilities, FrameEvent.recreateSwapChain],
      currentFrame)
  else
    ([FrameEvent.waitFence, FrameEvent.resetFence, FrameEvent.updateUniform,
        FrameEvent.submit, FrameEvent.present] ++
      (if pres = PresentResult.outOfDate ∨ pres = PresentResult.suboptimal then
        [FrameEvent.refreshSurfaceCapabilities, FrameEvent.recreateSwapChain]
      else []),
      (currentFrame + 1) % numSwapChainImages)

/-! ## updateSwapChain as a trace (main.cpp lines 671-776) -/

/-- The resource operations `updateSwapChain` could perform.  The
vocabulary includes the command-buffer, semaphore, fence and pool
operations that appear elsewhere in `main`, so that their absence from the
recreation trace is meaningful. -/
inductive SwapChainOp where
  | deviceWaitIdle
  | destroyFramebuffer
  | destroyPipeline
  | destroyRenderPass
  | destroyImageView
  | destroySwapchain
  | createSwapchain
  | createImageView
  | createRenderPass
  | createPipeline
  | createFramebuffer
  | resetCommandPool
  | recordCommandBuffer
  | freeCommandBuffers
  | allocateCommandBuffers
  | destroySemaphore
  | createSemaphore
  | destroyFence
  | createFence
  | destroyCommandPool
  | createCommandPool
  deriving DecidableEq

/-- The sequence of resource operations performed by `updateSwapChain`
(main.cpp lines 699-775): device-idle wait; destroy framebuffers,
pipeline, render pass, image views, swapchain; recreate swapchain, image
views, render pass, pipeline, framebuffers; reset the graphics command
pool and re-record one command buffer per image.  `nOldFb` and `nOldIv`
are the sizes of the incoming framebuffer and image-view vectors, `nNew`
the new swapchain image count. -/
def updateSwapChainTrace (nOldFb nOldIv nNew : Nat) : List SwapChainOp :=
  [SwapChainOp.deviceWaitIdle] ++
    (List.replicate nOldFb SwapChainOp.destroyFramebuffer ++
      ([SwapChainOp.destroyPipeline, SwapChainOp.destroyRenderPass] ++
        (List.replicate nOldIv SwapChainOp.destroyImageView ++
          ([SwapChainOp.destroySwapchain, SwapChainOp.createSwapchain] ++
            (List.replicate nNew SwapChainOp.createImageView ++
              ([SwapChainOp.createRenderPass, SwapChainOp.createPipeline] ++
                (List.replicate nNew SwapChainOp.createFramebuffer ++
                  ([SwapChainOp.resetCommandPool] ++
                    List.replicate nNew SwapChainOp.recordCommandBuffer))))))))

/-- The position of each operation in the fixed order of
`updateSwapChain`; operations the function never performs map to 100. -/
def opPhase : SwapChainOp → Nat
  | SwapChainOp.deviceWaitIdle => 0
  | SwapChainOp.destroyFramebuffer => 1
  | SwapChainOp.destroyPipeline => 2
  | SwapChainOp.destroyRenderPass => 3
  | SwapChainOp.destroyImageView => 4
  | SwapChainOp.destroySwapchain => 5
  | SwapChainOp.createSwapchain => 6
  | SwapChainOp.createImageView => 7
  | SwapChainOp.createRenderPass => 8
  | SwapChainOp.createPipeline => 9
  | SwapChainOp.createFramebuffer => 10
  | SwapChainOp.resetCommandPool => 11
  | SwapChainOp.recordCommandBuffer => 12
  | _ => 100

/-! ## Framebuffer-vector aliasing in updateSwapChain (main.cpp lines
620-667, 671-776, 1515-1522, 1577-1584) -/

/-- A framebuffer handle tagged by whether it predates or postdates the
recreation. -/
inductive FbTag where
  | old
  | new
  deriving DecidableEq

/-- Store semantics of the two framebuffer-vector reference parameters of
`updateSwapChain`: cells are named by the caller's argument expression.
The body first destroys and `clear()`s the vector behind
`_swapChainFramebuffers` (lines 701-704), then `resize`s and fills the
vector behind `_SwapChainFramebuffers` with the newly created
framebuffers (lines 756-769). -/
def updateFbStore (store : String → List FbTag) (pDest pCreate : String)
    (nNew : Nat) : String → List FbTag :=
  Function.update (Function.update store pDest []) pCreate
    (List.replicate nNew FbTag.new)

/-- The argument expressions `main` passes at the first `updateSwapChain`
call site (main.cpp lines 1515-1522) for the parameters
`_swapChainFramebuffers` (5th) and `_SwapChainFramebuffers` (16th). -/
def updateSwapChainCall1FbArgs : String × String :=
  ("swapChainFramebuffers", "swapChainFramebuffers")

/-- The argument expressions at the second call site (main.cpp lines
1577-1584) for the same two parameters. -/
def updateSwapChainCall2FbArgs : String × String :=
  ("swapChainFramebuffers", "swapChainFramebuffers")

/-! ## The frame loop as a state machine (main.cpp lines 1469-1588) -/

/-- CPU-visible status of a `VkFence`. -/
inductive FenceStatus where
  | signaled
  | unsignaled
  deriving DecidableEq

/-- Program counter of the loop body. -/
inductive LoopPhase where
  | acquire
  | waitFence
  | resetFence
  | updateUniform
  | submit
  | present
  | advance
  deriving DecidableEq

/-- State of the frame loop: the frame-slot index `currentFrame`, the
program counter, the status of `imageAvailableFences[k]` for every slot
`k`, and the number of command buffers submitted on slot `k` whose fence
has not yet signaled. -/
structure LoopState where
  currentFrame : Nat
  phase : LoopPhase
  fence : Nat → FenceStatus
  pending : Nat → Nat

/-- Initial state: `currentFrame = 0` (main.cpp line 1483), every fence
created with `VK_FENCE_CREATE_SIGNALED_BIT` (lines 1471-1481), nothing
submitted. -/
def initLoopState : LoopState :=
  { currentFrame := 0
    phase := LoopPhase.acquire
    fence := fun _ => FenceStatus.signaled
    pending := fun _ => 0 }

/-- Small-step semantics of the frame loop (main.cpp lines 1495-1588) with
`n` swapchain images.  `acquireOutOfDate` models the recreation branch,
which touches no fence and leaves `currentFrame` unchanged.
`waitFenceDone` models `vkWaitForFences` returning: it can only fire once
the slot's fence is signaled.  `submitDone` models `vkQueueSubmit` with
the slot's fence.  `gpuComplete` is the asynchronous GPU step finishing
one submission on a slot and signaling that slot's fence. -/
inductive FrameStep (n : Nat) : LoopState → LoopState → Prop where
  | acquireOk (s : LoopState) :
      s.phase = LoopPhase.acquire →
      FrameStep n s { s with phase := LoopPhase.waitFence }
  | acquireOutOfDate (s : LoopState) :
      s.phase = LoopPhase.acquire →
      FrameStep n s { s with phase := LoopPhase.acquire }
  | waitFenceDone (s : LoopState) :
      s.phase = LoopPhase.waitFence →
      s.fence s.currentFrame = FenceStatus.signaled →
      FrameStep n s { s with phase := LoopPhase.resetFence }
  | resetFenceDone (s : LoopState) :
      s.phase = LoopPhase.resetFence →
      FrameStep n s { s with phase := LoopPhase.updateUniform,
                             fence := Function.update s.fence s.currentFrame
                               FenceStatus.unsignaled }
  | updateUniformDone (s : LoopState) :
      s.phase = LoopPhase.updateUniform →
      FrameStep n s { s with phase := LoopPhase.submit }
  | submitDone (s : LoopState) :
      s.phase = LoopPhase.submit →
      FrameStep n s { s with phase := LoopPhase.present,
                             pending := Function.update s.pending s.currentFrame
                               (s.pending s.currentFrame + 1) }
  | presentDone (s : LoopState) :
      s.phase = LoopPhase.present →
      FrameStep n s { s with phase := LoopPhase.advance }
  | advanceDone (s : LoopState) :
      s.phase = LoopPhase.advance →
      FrameStep n s { s with phase := LoopPhase.acquire,
                             currentFrame := (s.currentFrame + 1) % n }
  | gpuComplete (s : LoopState) (slot : Nat) :
      0 < s.pending slot →
      FrameStep n s { s with fence := Function.update s.fence slot
                               FenceStatus.signaled,
                             pending := Function.update s.pending slot
                               (s.pending slot - 1) }

/-- States reachable from the initial state of the frame loop. -/
inductive ReachableLoopState (n : Nat) : LoopState → Prop where
  | init : ReachableLoopState n initLoopState
  | step (s t : LoopState) :
      ReachableLoopState n s → FrameStep n s t → ReachableLoopState n t

/-- Inductive invariant of the frame loop: every slot has at most one
unfinished submission; a signaled fence means no unfinished submission on
its slot; between the fence wait and the fence reset the current slot's
fence is signaled; between the fence reset and the submit the current
slot's fence is unsignaled and the slot has no unfinished submission. -/
def FrameLoopInv (s : LoopState) : Prop :=
  (∀ k, s.pending k ≤ 1) ∧
  (∀ k, s.fence k = FenceStatus.signaled → s.pending k = 0) ∧
  (s.phase = LoopPhase.resetFence →
    s.fence s.currentFrame = FenceStatus.signaled) ∧
  ((s.phase = LoopPhase.updateUniform ∨ s.phase = LoopPhase.submit) →
    s.fence s.currentFrame = FenceStatus.unsignaled ∧
      s.pending s.currentFrame = 0)

/-! ## Theorems -/

/-- Helper: the scan loop of `chooseSurfaceFormat` is first-match search. -/
theorem chooseSurfaceFormatLoop_eq_find (formats : List VkSurfaceFormatKHR) :
    chooseSurfaceFormatLoop formats = formats.find? isPreferredSurfaceFormat := by
  induction formats with
  | nil => rfl
  | cons f rest ih =>
      by_cases hf : isPreferredSurfaceFormat f
      · simp [chooseSurfaceFormatLoop, List.find?_cons_of_pos, hf]
      · simp [chooseSurfaceFormatLoop, List.find?_cons_of_neg, hf, ih]

/-- C6: for every list of supported present modes, `choosePresentMode`
returns MAILBOX whenever the list contains it, FIFO in every other case,
and never any other mode. -/
theorem choosePresentMode_spec :
    (∀ modes : List VkPresentModeKHR, VkPresentModeKHR.mailbox ∈ modes →
      choosePresentMode modes = VkPresentModeKHR.mailbox) ∧
    (∀ modes : List VkPresentModeKHR, VkPresentModeKHR.mailbox ∉ modes →
      choosePresentMode modes = VkPresentModeKHR.fifo) ∧
    (∀ modes : List VkPresentModeKHR,
      choosePresentMode modes = VkPresentModeKHR.mailbox ∨
        choosePresentMode modes = VkPresentModeKHR.fifo) := by
  refine ⟨?_, ?_, ?_⟩
  · intro modes h
    induction modes with
    | nil => cases h
    | cons m rest ih =>
        by_cases hm : m = VkPresentModeKHR.mailbox
        · subst hm; simp [choosePresentMode]
        · rcases List.mem_cons.mp h with h1 | h2
          · exact absurd h1.symm hm
          · simp only [choosePresentMode, if_neg hm]
            exact ih h2
  · intro modes h
    induction modes with
    | nil => rfl
    | cons m rest ih =>
        have hm : m ≠ VkPresentModeKHR.mailbox := by
          intro e
          exact h (e ▸ List.mem_cons_self m rest)
        simp only [choosePresentMode, if_neg hm]
        exact ih fun hr => h (List.mem_cons_of_mem m hr)
  · intro modes
    induction modes with
    | nil => right; rfl
    | cons m rest ih =>
        by_cases hm : m = VkPresentModeKHR.mailbox
        · left; simp [choosePresentMode, hm]
        · simpa only [choosePresentMode, if_neg hm] using ih

/-- Witness for C6 at concrete inputs. -/
theorem choosePresentMode_spec_witness :
    choosePresentMode [VkPresentModeKHR.fifo, VkPresentModeKHR.mailbox] =
      VkPresentModeKHR.mailbox ∧
    choosePresentMode [VkPresentModeKHR.fifo, VkPresentModeKHR.immediate] =
      VkPresentModeKHR.fifo :=
  ⟨choosePresentMode_spec.1 _ (by decide), choosePresentMode_spec.2.1 _ (by decide)⟩

/-- C7: `chooseSurfaceFormat` returns the first preferred (8-bit sRGB
nonlinear) entry when one exists and the first element otherwise; on a
non-empty format list it always returns a value, and `checkPhysicalDevice`
accepts a device only when the surface reports at least one format. -/
theorem chooseSurfaceFormat_spec :
    (∀ formats, chooseSurfaceFormat formats = chooseSurfaceFormatSpec formats) ∧
    (∀ formats, formats ≠ [] → (chooseSurfaceFormat formats).isSome = true) ∧
    (∀ (dev : PhysicalDeviceInfo) (exts : List String),
      checkPhysicalDevice dev exts = true → dev.surfaceFormats ≠ []) := by
  refine ⟨?_, ?_, ?_⟩
  · intro formats
    unfold chooseSurfaceFormat chooseSurfaceFormatSpec
    rw [chooseSurfaceFormatLoop_eq_find]
  · intro formats h
    cases formats with
    | nil => exact absurd rfl h
    | cons f rest =>
        cases hl : chooseSurfaceFormatLoop (f :: rest) <;>
          simp [chooseSurfaceFormat, hl]
  · intro dev exts h
    simp only [checkPhysicalDevice, Bool.and_eq_true, decide_eq_true_eq] at h
    exact List.ne_nil_of_length_pos h.1.1.1.2.1

/-- Witness for C7 at concrete inputs: a two-element format list with the
preferred entry second, and a concrete device accepted by
`checkPhysicalDevice`. -/
theorem chooseSurfaceFormat_spec_witness :
    (chooseSurfaceFormat
      [VkSurfaceFormatKHR.mk 44 0, VkSurfaceFormatKHR.mk 37 0]).isSome = true ∧
    (PhysicalDeviceInfo.mk 2 true true true true
      [QueueFamilyProps.mk true true true true] []
      [VkSurfaceFormatKHR.mk 37 0] [VkPresentModeKHR.fifo]).surfaceFormats ≠ [] :=
  ⟨chooseSurfaceFormat_spec.2.1 _ (by decide),
    chooseSurfaceFormat_spec.2.2 _ [] (by decide)⟩

/-- C5: the requested swapchain image count is `minImageCount + 1`,
reduced to `maxImageCount` exactly when the latter is nonzero and smaller;
a surface with `minImageCount = 2` (and `maxImageCount` zero or at least
3) yields 3; and every per-swapchain-image resource array in `main` has
exactly one element per swapchain image. -/
theorem createSwapChain_imageCount_spec :
    (∀ caps : SurfaceCapabilities,
      swapChainRequestedImageCount caps =
        swapChainImageCountSpec caps.minImageCount caps.maxImageCount) ∧
    swapChainRequestedImageCount ⟨2, 0⟩ = 3 ∧
    (∀ maxC, 3 ≤ maxC → swapChainRequestedImageCount ⟨2, maxC⟩ = 3) ∧
    (∀ n, (createPerImageResources n).uniformBuffers.length = n ∧
      (createPerImageResources n).descriptorSets.length = n ∧
      (createPerImageResources n).graphicsCmdBuffers.length = n ∧
      (createPerImageResources n).imageAvailableSemaphores.length = n ∧
      (createPerImageResources n).renderFinishedSemaphores.length = n ∧
      (createPerImageResources n).imageAvailableFences.length = n) := by
  refine ⟨?_, by decide, ?_, ?_⟩
  · intro caps
    simp only [swapChainRequestedImageCount, swapChainImageCountSpec]
    split_ifs <;> omega
  · intro maxC h
    simp only [swapChainRequestedImageCount]
    rw [if_neg (by omega)]
  · intro n
    refine ⟨?_, ?_, ?_, ?_, ?_, ?_⟩ <;> simp [createPerImageResources]

/-- Witness for C5 at a concrete capped capability. -/
theorem createSwapChain_imageCount_spec_witness :
    swapChainRequestedImageCount ⟨2, 5⟩ = 3 :=
  createSwapChain_imageCount_spec.2.2.1 5 (by decide)

/-- C2: when acquire returns out-of-date, the loop iteration performs no
fence wait, no fence reset, no uniform update, no submit and no present;
it refreshes the surface capabilities, runs the recreation, and leaves the
frame-slot index unadvanced. -/
theorem frameIteration_outOfDate :
    ∀ (pres : PresentResult) (c n : Nat),
      frameIteration AcquireResult.outOfDate pres c n =
        ([FrameEvent.refreshSurfaceCapabilities, FrameEvent.recreateSwapChain],
          c) ∧
      FrameEvent.waitFence ∉ (frameIteration AcquireResult.outOfDate pres c n).1 ∧
      FrameEvent.resetFence ∉ (frameIteration AcquireResult.outOfDate pres c n).1 ∧
      FrameEvent.updateUniform ∉ (frameIteration AcquireResult.outOfDate pres c n).1 ∧
      FrameEvent.submit ∉ (frameIteration AcquireResult.outOfDate pres c n).1 ∧
      FrameEvent.present ∉ (frameIteration AcquireResult.outOfDate pres c n).1 ∧
      FrameEvent.refreshSurfaceCapabilities ∈
        (frameIteration AcquireResult.outOfDate pres c n).1 ∧
      FrameEvent.recreateSwapChain ∈
        (frameIteration AcquireResult.outOfDate pres c n).1 ∧
      (frameIteration AcquireResult.outOfDate pres c n).2 = c := by
  intro pres c n
  simp [frameIteration]

/-- Witness for C2: the out-of-date iteration at frame slot 5 of a
three-image loop leaves the slot index at 5. -/
theorem frameIteration_outOfDate_witness :
    (frameIteration AcquireResult.outOfDate PresentResult.success 5 3).2 = 5 :=
  (frameIteration_outOfDate PresentResult.success 5 3).2.2.2.2.2.2.2.2

/-- C10: multiplying by `Mat4::identity()` on either side of `operator*`
yields the transpose of the argument (entrywise, over the exact model of
the float arithmetic); consequently `identity()` is not a two-sided
identity element of `operator*`. -/
theorem mat4_identity_transpose :
    (∀ (A : Mat4) (i j : Fin 4),
      (Mat4.mul A Mat4.identity).M i j = A.M j i ∧
      (Mat4.mul Mat4.identity A).M i j = A.M j i) ∧
    ∃ A : Mat4, Mat4.mul A Mat4.identity ≠ A := by
  constructor
  · intro A i j
    constructor <;>
      (fin_cases i <;> fin_cases j <;>
        simp [Mat4.mul, dotF4, Mat4.row, Mat4.column, Mat4.identity])
  · refine ⟨Mat4.offDiag, fun h => ?_⟩
    have h10 := congrArg (fun m => m.M 1 0) h
    simp [Mat4.mul, dotF4, Mat4.row, Mat4.column, Mat4.identity,
      Mat4.offDiag] at h10

/-- C9: after `updateSwapChain`'s body, the vector behind the destroy
parameter `_swapChainFramebuffers` supports the in-bounds reads of the
newly created framebuffers performed by `recordCommand` exactly when the
caller passed the same vector object for `_swapChainFramebuffers` and
`_SwapChainFramebuffers`; both call sites in `main` pass
`swapChainFramebuffers` for each. -/
theorem updateSwapChain_framebuffer_aliasing :
    (∀ (store : String → List FbTag) (pDest pCreate : String) (nNew : Nat),
      0 < nNew →
      ((nNew ≤ (updateFbStore store pDest pCreate nNew pDest).length ∧
        (updateFbStore store pDest pCreate nNew pDest).take nNew =
          List.replicate nNew FbTag.new) ↔ pDest = pCreate)) ∧
    updateSwapChainCall1FbArgs.1 = updateSwapChainCall1FbArgs.2 ∧
    updateSwapChainCall2FbArgs.1 = updateSwapChainCall2FbArgs.2 := by
  refine ⟨?_, rfl, rfl⟩
  intro store pDest pCreate nNew hn
  by_cases h : pDest = pCreate
  · subst h
    have e1 : updateFbStore store pDest pDest nNew pDest =
        List.replicate nNew FbTag.new := by
      unfold updateFbStore
      rw [Function.update_same]
    rw [e1]
    simp [List.take_replicate]
  · have e1 : updateFbStore store pDest pCreate nNew pDest = [] := by
      unfold updateFbStore
      rw [Function.update_noteq h, Function.update_same]
    rw [e1]
    simp only [List.length_nil, h, iff_false, not_and]
    intro hle
    omega

/-- Witness for C9: the aliased call with three images. -/
theorem updateSwapChain_framebuffer_aliasing_witness :
    3 ≤ (updateFbStore (fun _ => []) "swapChainFramebuffers"
          "swapChainFramebuffers" 3 "swapChainFramebuffers").length ∧
    (updateFbStore (fun _ => []) "swapChainFramebuffers"
          "swapChainFramebuffers" 3 "swapChainFramebuffers").take 3 =
      List.replicate 3 FbTag.new :=
  (updateSwapChain_framebuffer_aliasing.1 (fun _ => []) _ _ 3 (by decide)).mpr rfl

/-- Witness for C10: the transpose identity at the off-diagonal example. -/
theorem mat4_identity_transpose_witness :
    (Mat4.mul Mat4.offDiag Mat4.identity).M 0 1 = Mat4.offDiag.M 1 0 :=
  (mat4_identity_transpose.1 Mat4.offDiag 0 1).1

/-! ### Queue-family resolution lemmas -/

theorem assignTransfer_Graphics (f : QueueFamilyProps) (i : Nat)
    (r : QueueFamilyIndices) : (assignTransfer f i r).Graphics = r.Graphics := by
  unfold assignTransfer; split <;> rfl

theorem assignCompute_Graphics (f : QueueFamilyProps) (i : Nat)
    (r : QueueFamilyIndices) : (assignCompute f i r).Graphics = r.Graphics := by
  unfold assignCompute; split <;> rfl

theorem assignPresent_Graphics (f : QueueFamilyProps) (i : Nat)
    (r : QueueFamilyIndices) : (assignPresent f i r).Graphics = r.Graphics := by
  unfold assignPresent; split <;> rfl

theorem assignGraphics_Transfer0 (f : QueueFamilyProps) (i : Nat)
    (r : QueueFamilyIndices) : (assignGraphics f i r).Transfer0 = r.Transfer0 := by
  unfold assignGraphics; split <;> rfl

theorem assignCompute_Transfer0 (f : QueueFamilyProps) (i : Nat)
    (r : QueueFamilyIndices) : (assignCompute f i r).Transfer0 = r.Transfer0 := by
  unfold assignCompute; split <;> rfl

theorem assignPresent_Transfer0 (f : QueueFamilyProps) (i : Nat)
    (r : QueueFamilyIndices) : (assignPresent f i r).Transfer0 = r.Transfer0 := by
  unfold assignPresent; split <;> rfl

theorem assignGraphics_Compute (f : QueueFamilyProps) (i : Nat)
    (r : QueueFamilyIndices) : (assignGraphics f i r).Compute = r.Compute := by
  unfold assignGraphics; split <;> rfl

theorem assignTransfer_Compute (f : QueueFamilyProps) (i : Nat)
    (r : QueueFamilyIndices) : (assignTransfer f i r).Compute = r.Compute := by
  unfold assignTransfer; split <;> rfl

theorem assignPresent_Compute (f : QueueFamilyProps) (i : Nat)
    (r : QueueFamilyIndices) : (assignPresent f i r).Compute = r.Compute := by
  unfold assignPresent; split <;> rfl

theorem assignGraphics_Present (f : QueueFamilyProps) (i : Nat)
    (r : QueueFamilyIndices) : (assignGraphics f i r).Present = r.Present := by
  unfold assignGraphics; split <;> rfl

theorem assignTransfer_Present (f : QueueFamilyProps) (i : Nat)
    (r : QueueFamilyIndices) : (assignTransfer f i r).Present = r.Present := by
  unfold assignTransfer; split <;> rfl

theorem assignCompute_Present (f : QueueFamilyProps) (i : Nat)
    (r : QueueFamilyIndices) : (assignCompute f i r).Present = r.Present := by
  unfold assignCompute; split <;> rfl

theorem assignGraphics_isSome (f : QueueFamilyProps) (i : Nat)
    (r : QueueFamilyIndices) :
    (assignGraphics f i r).Graphics.isSome = (f.graphics || r.Graphics.isSome) := by
  unfold assignGraphics
  cases hf : f.graphics <;> cases hr : r.Graphics.isSome <;> simp [hf, hr]

theorem assignTransfer_isSome (f : QueueFamilyProps) (i : Nat)
    (r : QueueFamilyIndices) :
    (assignTransfer f i r).Transfer0.isSome = (f.transfer || r.Transfer0.isSome) := by
  unfold assignTransfer
  cases hf : f.transfer <;> cases hr : r.Transfer0.isSome <;> simp [hf, hr]

theorem assignCompute_isSome (f : QueueFamilyProps) (i : Nat)
    (r : QueueFamilyIndices) :
    (assignCompute f i r).Compute.isSome = (f.compute || r.Compute.isSome) := by
  unfold assignCompute
  cases hf : f.compute <;> cases hr : r.Compute.isSome <;> simp [hf, hr]

theorem assignPresent_isSome (f : QueueFamilyProps) (i : Nat)
    (r : QueueFamilyIndices) :
    (assignPresent f i r).Present.isSome = (r.Present.isSome || f.present) := by
  unfold assignPresent
  cases hf : f.present <;> cases hr : r.Present.isSome <;> simp [hf, hr]

theorem pass2_graphics_isSome :
    ∀ (fams : List QueueFamilyProps) (i : Nat) (r : QueueFamilyIndices),
      (r.Graphics.isSome = true ∨ ∃ f ∈ fams, f.graphics = true) →
      (getQueueFamilyPass2 fams i r).Graphics.isSome = true := by
  intro fams
  induction fams with
  | nil =>
      intro i r h
      rcases h with h | ⟨f, hf, _⟩
      · exact h
      · cases hf
  | cons f rest ih =>
      intro i r h
      simp only [getQueueFamilyPass2]
      apply ih
      have hG : (assignPresent f i (assignCompute f i (assignTransfer f i
          (assignGraphics f i r)))).Graphics.isSome =
          (f.graphics || r.Graphics.isSome) := by
        rw [assignPresent_Graphics, assignCompute_Graphics,
          assignTransfer_Graphics, assignGraphics_isSome]
      rcases h with h | ⟨g, hg, hgr⟩
      · left; rw [hG, h, Bool.or_true]
      · rcases List.mem_cons.mp hg with rfl | hrest
        · left; rw [hG, hgr, Bool.true_or]
        · right; exact ⟨g, hrest, hgr⟩

theorem pass2_transfer_isSome :
    ∀ (fams : List QueueFamilyProps) (i : Nat) (r : QueueFamilyIndices),
      (r.Transfer0.isSome = true ∨ ∃ f ∈ fams, f.transfer = true) →
      (getQueueFamilyPass2 fams i r).Transfer0.isSome = true := by
  intro fams
  induction fams with
  | nil =>
      intro i r h
      rcases h with h | ⟨f, hf, _⟩
      · exact h
      · cases hf
  | cons f rest ih =>
      intro i r h
      simp only [getQueueFamilyPass2]
      apply ih
      have hT : (assignPresent f i (assignCompute f i (assignTransfer f i
          (assignGraphics f i r)))).Transfer0.isSome =
          (f.transfer || r.Transfer0.isSome) := by
        rw [assignPresent_Transfer0, assignCompute_Transfer0,
          assignTransfer_isSome, assignGraphics_Transfer0]
      rcases h with h | ⟨g, hg, hgr⟩
      · left; rw [hT, h, Bool.or_true]
      · rcases List.mem_cons.mp hg with rfl | hrest
        · left; rw [hT, hgr, Bool.true_or]
        · right; exact ⟨g, hrest, hgr⟩

theorem pass2_compute_isSome :
    ∀ (fams : List QueueFamilyProps) (i : Nat) (r : QueueFamilyIndices),
      (r.Compute.isSome = true ∨ ∃ f ∈ fams, f.compute = true) →
      (getQueueFamilyPass2 fams i r).Compute.isSome = true := by
  intro fams
  induction fams with
  | nil =>
      intro i r h
      rcases h with h | ⟨f, hf, _⟩
      · exact h
      · cases hf
  | cons f rest ih =>
      intro i r h
      simp only [getQueueFamilyPass2]
      apply ih
      have hC : (assignPresent f i (assignCompute f i (assignTransfer f i
          (assignGraphics f i r)))).Compute.isSome =
          (f.compute || r.Compute.isSome) := by
        rw [assignPresent_Compute, assignCompute_isSome, assignTransfer_Compute,
          assignGraphics_Compute]
      rcases h with h | ⟨g, hg, hgr⟩
      · left; rw [hC, h, Bool.or_true]
      · rcases List.mem_cons.mp hg with rfl | hrest
        · left; rw [hC, hgr, Bool.true_or]
        · right; exact ⟨g, hrest, hgr⟩

theorem pass2_present_isSome :
    ∀ (fams : List QueueFamilyProps) (i : Nat) (r : QueueFamilyIndices),
      (r.Present.isSome = true ∨ ∃ f ∈ fams, f.present = true) →
      (getQueueFamilyPass2 fams i r).Present.isSome = true := by
  intro fams
  induction fams with
  | nil =>
      intro i r h
      rcases h with h | ⟨f, hf, _⟩
      · exact h
      · cases hf
  | cons f rest ih =>
      intro i r h
      simp only [getQueueFamilyPass2]
      apply ih
      have hP : (assignPresent f i (assignCompute f i (assignTransfer f i
          (assignGraphics f i r)))).Present.isSome =
          (r.Present.isSome || f.present) := by
        rw [assignPresent_isSome, assignCompute_Present, assignTransfer_Present,
          assignGraphics_Present]
      rcases h with h | ⟨g, hg, hgr⟩
      · left; rw [hP, h, Bool.true_or]
      · rcases List.mem_cons.mp hg with rfl | hrest
        · left; rw [hP, hgr, Bool.or_true]
        · right; exact ⟨g, hrest, hgr⟩

/-- C3: for every queue-family list containing at least one graphics-,
one transfer- and one compute-capable family and at least one family with
present support, `getQueueFamily` returns a fully populated
`QueueFamilyIndices`; the second pass runs only when the first pass left
some role unresolved, and it may assign the same family index to several
roles. -/
theorem getQueueFamily_complete :
    (∀ fams : List QueueFamilyProps,
      (∃ f ∈ fams, f.graphics = true) →
      (∃ f ∈ fams, f.transfer = true) →
      (∃ f ∈ fams, f.compute = true) →
      (∃ f ∈ fams, f.present = true) →
      (getQueueFamily fams).isCompleted = true) ∧
    (∀ fams : List QueueFamilyProps,
      (getQueueFamilyPass1 fams 0 QueueFamilyIndices.initial).isCompleted = true →
      getQueueFamily fams =
        getQueueFamilyPass1 fams 0 QueueFamilyIndices.initial) ∧
    getQueueFamily [QueueFamilyProps.mk true true true true] =
      { Graphics := some 0, Transfer0 := some 0,
        Present := some 0, Compute := some 0 } := by
  refine ⟨?_, ?_, by decide⟩
  · intro fams hg ht hc hp
    by_cases h1 :
      (getQueueFamilyPass1 fams 0 QueueFamilyIndices.initial).isCompleted = true
    · simp [getQueueFamily, h1]
    · simp only [getQueueFamily, h1, if_false, Bool.false_eq_true]
      unfold QueueFamilyIndices.isCompleted
      rw [pass2_graphics_isSome _ _ _ (Or.inr hg),
        pass2_transfer_isSome _ _ _ (Or.inr ht),
        pass2_present_isSome _ _ _ (Or.inr hp),
        pass2_compute_isSome _ _ _ (Or.inr hc)]
      rfl
  · intro fams h1
    simp [getQueueFamily, h1]

/-- Witness for C3: a two-family device where pass 1 cannot resolve every
role on its own. -/
theorem getQueueFamily_complete_witness :
    (getQueueFamily [QueueFamilyProps.mk true false false false,
      QueueFamilyProps.mk false true true true]).isCompleted = true :=
  getQueueFamily_complete.1 _ (by decide) (by decide) (by decide) (by decide)

/-! ### Device-queue creation lemmas -/

theorem fetchQueueAux_fst :
    ∀ (l seen : List Nat), (fetchQueueAux seen l).map Prod.fst = l := by
  intro l
  induction l with
  | nil => intro seen; rfl
  | cons f rest ih =>
      intro seen
      simp [fetchQueueAux, ih]

theorem fetchQueueAux_count_le :
    ∀ (l seen : List Nat) (p : Nat × Nat),
      p ∈ fetchQueueAux seen l → seen.count p.1 ≤ p.2 := by
  intro l
  induction l with
  | nil => intro seen p hp; cases hp
  | cons f rest ih =>
      intro seen p hp
      rcases List.mem_cons.mp hp with rfl | hmem
      · exact Nat.le_refl _
      · have h2 := ih (seen ++ [f]) p hmem
        rw [List.count_append] at h2
        omega

theorem fetchQueueAux_nodup :
    ∀ (l seen : List Nat), (fetchQueueAux seen l).Nodup := by
  intro l
  induction l with
  | nil => intro seen; exact List.nodup_nil
  | cons f rest ih =>
      intro seen
      refine List.nodup_cons.mpr ⟨?_, ih (seen ++ [f])⟩
      intro hmem
      have h := fetchQueueAux_count_le rest (seen ++ [f]) (f, seen.count f) hmem
      rw [List.count_append] at h
      have hc : List.count f [f] = 1 := by simp
      simp only [hc] at h
      omega

theorem fetchQueueAux_snd_lt :
    ∀ (l seen : List Nat) (p : Nat × Nat),
      p ∈ fetchQueueAux seen l → p.2 < seen.count p.1 + l.count p.1 := by
  intro l
  induction l with
  | nil => intro seen p hp; cases hp
  | cons f rest ih =>
      intro seen p hp
      rcases List.mem_cons.mp hp with rfl | hmem
      · have hcc : (f :: rest).count f = rest.count f + 1 :=
          List.count_cons_self f rest
        show seen.count f < seen.count f + (f :: rest).count f
        omega
      · have h2 := ih (seen ++ [f]) p hmem
        rw [List.count_append] at h2
        have hc : [f] ++ rest = f :: rest := rfl
        rw [← hc, List.count_append]
        omega

/-- C8: device creation produces one `(family, queueCount)` pair per
distinct role family, with `queueCount` the number of roles mapped to the
family, and the four `vkGetDeviceQueue` fetches use pairwise-distinct
`(family, queueIndex)` pairs whose index is below the family's requested
queue count. -/
theorem deviceQueueSetup_spec :
    ∀ g t p c : Nat,
      (deviceQueueCreateInfos (roleQueueFamilies g t p c)).map Prod.fst =
        (roleQueueFamilies g t p c).dedup ∧
      ((deviceQueueCreateInfos (roleQueueFamilies g t p c)).map Prod.fst).Nodup ∧
      (∀ f : Nat,
        f ∈ (deviceQueueCreateInfos (roleQueueFamilies g t p c)).map Prod.fst ↔
          f ∈ roleQueueFamilies g t p c) ∧
      (∀ q ∈ deviceQueueCreateInfos (roleQueueFamilies g t p c),
        q.2 = (roleQueueFamilies g t p c).count q.1) ∧
      (fetchQueuePairs (roleQueueFamilies g t p c)).map Prod.fst =
        roleQueueFamilies g t p c ∧
      (fetchQueuePairs (roleQueueFamilies g t p c)).Nodup ∧
      (∀ q ∈ fetchQueuePairs (roleQueueFamilies g t p c),
        q.2 < (roleQueueFamilies g t p c).count q.1) := by
  intro g t p c
  have hmapfst :
      (deviceQueueCreateInfos (roleQueueFamilies g t p c)).map Prod.fst =
        (roleQueueFamilies g t p c).dedup := by
    unfold deviceQueueCreateInfos
    rw [List.map_map]
    show List.map id (roleQueueFamilies g t p c).dedup =
      (roleQueueFamilies g t p c).dedup
    exact List.map_id _
  refine ⟨hmapfst, ?_, ?_, ?_, ?_, ?_, ?_⟩
  · rw [hmapfst]; exact List.nodup_dedup _
  · intro f; rw [hmapfst]; exact List.mem_dedup
  · intro q hq
    rcases List.mem_map.mp hq with ⟨x, _, rfl⟩
    rfl
  · exact fetchQueueAux_fst _ []
  · exact fetchQueueAux_nodup _ []
  · intro q hq
    have h := fetchQueueAux_snd_lt (roleQueueFamilies g t p c) [] q hq
    simpa using h

/-- Witness for C8: roles Graphics, Transfer0 and Compute collapsed onto
family 5, Present on family 7; the Compute fetch is `(5, 2)` and `2` is
below the three queues requested from family 5. -/
theorem deviceQueueSetup_spec_witness :
    (2 : Nat) < (roleQueueFamilies 5 5 7 5).count 5 :=
  (deviceQueueSetup_spec 5 5 7 5).2.2.2.2.2.2 (5, 2) (by decide)

/-! ### updateSwapChain trace lemmas -/

theorem updateSwapChainTrace_sorted (a b c : Nat) :
    List.Pairwise (fun x y => opPhase x ≤ opPhase y)
      (updateSwapChainTrace a b c) := by
  have hj : updateSwapChainTrace a b c =
      ([[SwapChainOp.deviceWaitIdle],
        List.replicate a SwapChainOp.destroyFramebuffer,
        [SwapChainOp.destroyPipeline], [SwapChainOp.destroyRenderPass],
        List.replicate b SwapChainOp.destroyImageView,
        [SwapChainOp.destroySwapchain], [SwapChainOp.createSwapchain],
        List.replicate c SwapChainOp.createImageView,
        [SwapChainOp.createRenderPass], [SwapChainOp.createPipeline],
        List.replicate c SwapChainOp.createFramebuffer,
        [SwapChainOp.resetCommandPool],
        List.replicate c SwapChainOp.recordCommandBuffer] :
        List (List SwapChainOp)).flatten := by
    simp [updateSwapChainTrace, List.flatten]
  rw [hj, List.pairwise_flatten]
  refine ⟨?_, ?_⟩
  · intro l hl
    simp only [List.mem_cons, List.not_mem_nil, or_false] at hl
    rcases hl with rfl|rfl|rfl|rfl|rfl|rfl|rfl|rfl|rfl|rfl|rfl|rfl|rfl <;>
      first
        | exact List.pairwise_singleton _ _
        | exact List.pairwise_replicate.mpr (Or.inr (le_refl _))
  · simp [List.pairwise_cons, List.mem_replicate, List.mem_cons,
      List.mem_singleton, opPhase]

/-- C4: the recreation trace of `updateSwapChain` never frees, creates or
destroys command buffers, semaphores, fences or pools; it resets the
graphics command pool once and re-records one command buffer per image;
framebuffers, pipeline, render pass, image views and swapchain are each
destroyed and re-created, and every operation respects the fixed
consumers-before-producers phase order. -/
theorem updateSwapChain_trace_spec :
    ∀ nOldFb nOldIv nNew : Nat,
      SwapChainOp.freeCommandBuffers ∉ updateSwapChainTrace nOldFb nOldIv nNew ∧
      SwapChainOp.allocateCommandBuffers ∉ updateSwapChainTrace nOldFb nOldIv nNew ∧
      SwapChainOp.destroySemaphore ∉ updateSwapChainTrace nOldFb nOldIv nNew ∧
      SwapChainOp.createSemaphore ∉ updateSwapChainTrace nOldFb nOldIv nNew ∧
      SwapChainOp.destroyFence ∉ updateSwapChainTrace nOldFb nOldIv nNew ∧
      SwapChainOp.createFence ∉ updateSwapChainTrace nOldFb nOldIv nNew ∧
      SwapChainOp.destroyCommandPool ∉ updateSwapChainTrace nOldFb nOldIv nNew ∧
      SwapChainOp.createCommandPool ∉ updateSwapChainTrace nOldFb nOldIv nNew ∧
      (updateSwapChainTrace nOldFb nOldIv nNew).count
        SwapChainOp.resetCommandPool = 1 ∧
      (updateSwapChainTrace nOldFb nOldIv nNew).count
        SwapChainOp.recordCommandBuffer = nNew ∧
      (updateSwapChainTrace nOldFb nOldIv nNew).count
        SwapChainOp.destroyFramebuffer = nOldFb ∧
      (updateSwapChainTrace nOldFb nOldIv nNew).count
        SwapChainOp.destroyPipeline = 1 ∧
      (updateSwapChainTrace nOldFb nOldIv nNew).count
        SwapChainOp.destroyRenderPass = 1 ∧
      (updateSwapChainTrace nOldFb nOldIv nNew).count
        SwapChainOp.destroyImageView = nOldIv ∧
      (updateSwapChainTrace nOldFb nOldIv nNew).count
        SwapChainOp.destroySwapchain = 1 ∧
      (updateSwapChainTrace nOldFb nOldIv nNew).count
        SwapChainOp.createSwapchain = 1 ∧
      (updateSwapChainTrace nOldFb nOldIv nNew).count
        SwapChainOp.createImageView = nNew ∧
      (updateSwapChainTrace nOldFb nOldIv nNew).count
        SwapChainOp.createRenderPass = 1 ∧
      (updateSwapChainTrace nOldFb nOldIv nNew).count
        SwapChainOp.createPipeline = 1 ∧
      (updateSwapChainTrace nOldFb nOldIv nNew).count
        SwapChainOp.createFramebuffer = nNew ∧
      List.Pairwise (fun x y => opPhase x ≤ opPhase y)
        (updateSwapChainTrace nOldFb nOldIv nNew) := by
  intro a b c
  refine ⟨?_, ?_, ?_, ?_, ?_, ?_, ?_, ?_, ?_, ?_, ?_, ?_, ?_, ?_, ?_, ?_, ?_,
    ?_, ?_, ?_, ?_⟩ <;>
    first
      | exact updateSwapChainTrace_sorted a b c
      | simp [updateSwapChainTrace, List.count_append, List.count_replicate]

/-- Witness for C4: recreation with three images re-records exactly three
command buffers. -/
theorem updateSwapChain_trace_spec_witness :
    (updateSwapChainTrace 3 3 3).count SwapChainOp.recordCommandBuffer = 3 :=
  (updateSwapChain_trace_spec 3 3 3).2.2.2.2.2.2.2.2.2.1

/-! ### Frame-loop invariant lemmas -/

theorem frameLoopInv_init : FrameLoopInv initLoopState := by
  refine ⟨fun k => by simp [initLoopState], fun k _ => by simp [initLoopState],
    fun h => by simp [initLoopState] at h,
    fun h => by simp [initLoopState] at h⟩

theorem frameLoopInv_step {n : Nat} {s t : LoopState} (hs : FrameLoopInv s)
    (st : FrameStep n s t) : FrameLoopInv t := by
  obtain ⟨h1, h2, h3, h4⟩ := hs
  cases st with
  | acquireOk hp =>
      refine ⟨h1, h2, fun h => LoopPhase.noConfusion h, fun h => ?_⟩
      rcases h with h | h <;> exact LoopPhase.noConfusion h
  | acquireOutOfDate hp =>
      refine ⟨h1, h2, fun h => LoopPhase.noConfusion h, fun h => ?_⟩
      rcases h with h | h <;> exact LoopPhase.noConfusion h
  | waitFenceDone hp hf =>
      refine ⟨h1, h2, fun _ => hf, fun h => ?_⟩
      rcases h with h | h <;> exact LoopPhase.noConfusion h
  | resetFenceDone hp =>
      refine ⟨h1, ?_, fun h => LoopPhase.noConfusion h, fun _ => ⟨?_, ?_⟩⟩
      · intro k hk
        dsimp only at hk
        by_cases hkc : k = s.currentFrame
        · subst hkc
          rw [Function.update_same] at hk
          exact FenceStatus.noConfusion hk
        · rw [Function.update_noteq hkc] at hk
          exact h2 k hk
      · dsimp only
        exact Function.update_same _ _ _
      · exact h2 _ (h3 hp)
  | updateUniformDone hp =>
      exact ⟨h1, h2, fun h => LoopPhase.noConfusion h, fun _ => h4 (Or.inl hp)⟩
  | submitDone hp =>
      have hcur := h4 (Or.inr hp)
      refine ⟨?_, ?_, fun h => LoopPhase.noConfusion h, fun h => ?_⟩
      · intro k
        dsimp only
        by_cases hkc : k = s.currentFrame
        · subst hkc
          rw [Function.update_same, hcur.2]
        · rw [Function.update_noteq hkc]
          exact h1 k
      · intro k hk
        dsimp only at hk ⊢
        by_cases hkc : k = s.currentFrame
        · subst hkc
          rw [hcur.1] at hk
          exact FenceStatus.noConfusion hk
        · rw [Function.update_noteq hkc]
          exact h2 k hk
      · rcases h with h | h <;> exact LoopPhase.noConfusion h
  | presentDone hp =>
      refine ⟨h1, h2, fun h => LoopPhase.noConfusion h, fun h => ?_⟩
      rcases h with h | h <;> exact LoopPhase.noConfusion h
  | advanceDone hp =>
      refine ⟨h1, h2, fun h => LoopPhase.noConfusion h, fun h => ?_⟩
      rcases h with h | h <;> exact LoopPhase.noConfusion h
  | gpuComplete slot hpend =>
      refine ⟨?_, ?_, ?_, ?_⟩
      · intro k
        dsimp only
        by_cases hkc : k = slot
        · subst hkc
          rw [Function.update_same]
          have := h1 k
          omega
        · rw [Function.update_noteq hkc]
          exact h1 k
      · intro k hk
        dsimp only at hk ⊢
        by_cases hkc : k = slot
        · subst hkc
          rw [Function.update_same]
          have := h1 k
          omega
        · rw [Function.update_noteq hkc] at hk ⊢
          exact h2 k hk
      · intro hph
        dsimp only at hph ⊢
        by_cases hcc : s.currentFrame = slot
        · rw [hcc, Function.update_same]
        · rw [Function.update_noteq hcc]
          exact h3 hph
      · intro hph
        dsimp only at hph ⊢
        obtain ⟨hcf, hcp⟩ := h4 hph
        have hcs : s.currentFrame ≠ slot := by
          intro e
          rw [e] at hcp
          omega
        constructor
        · rw [Function.update_noteq hcs]
          exact hcf
        · rw [Function.update_noteq hcs]
          exact hcp

theorem reachable_frameLoopInv {n : Nat} {s : LoopState}
    (h : ReachableLoopState n s) : FrameLoopInv s := by
  induction h with
  | init => exact frameLoopInv_init
  | step s t _ hst ih => exact frameLoopInv_step ih hst

/-- C1: in every reachable state of the frame loop, each frame slot has at
most one command buffer submitted whose fence has not yet signaled. -/
theorem frameLoop_pending_le_one :
    ∀ (n : Nat) (s : LoopState), ReachableLoopState n s →
      ∀ slot : Nat, s.pending slot ≤ 1 := by
  intro n s h slot
  exact (reachable_frameLoopInv h).1 slot

/-- Witness for C1: the invariant at the initial state of a three-image
loop. -/
theorem frameLoop_pending_le_one_witness :
    initLoopState.pending 0 ≤ 1 :=
  frameLoop_pending_le_one 3 initLoopState ReachableLoopState.init 0

end BB
